import Mathlib

/-!
Formal model of `src/deserializer_kiss.py`: a serial-packet framer and
decoder.  The Python program defines a `Marker` class (sync-marker test via
`struct.unpack`), a `Packet` class (payload decode via `struct.unpack('<III')`
into fields `x`, `y`, `z`), and a `main` loop that reads a 4-byte window,
tests it against the marker, and on a match reads and decodes a 12-byte
payload.  Bytes are modelled as natural numbers, the serial stream as a
`List Nat`, and the endless loop as a fuel-indexed recursion; a blocked read
(fewer bytes remaining than requested) ends the run with no further reports.
-/

namespace DeserializerKiss

/-- The two `struct` format strings appearing in the source: `'<I'` (one
unsigned 32-bit little-endian integer) and `'<III'` (three of them). -/
inductive StructFormat where
  | fmtLtI
  | fmtLtIII
deriving DecidableEq, Repr

/-- Field byte-widths described by a format string (each `I` is 4 bytes). -/
def fieldSizes : StructFormat → List Nat
  | .fmtLtI => [4]
  | .fmtLtIII => [4, 4, 4]

/-- Model of `struct.calcsize`: total byte width of a format. -/
def calcsize (f : StructFormat) : Nat := (fieldSizes f).sum

/-- Unsigned little-endian interpretation of a byte list (least significant
byte first), as `struct.unpack` does for `<I` fields. -/
def leDecode (bs : List Nat) : Nat :=
  bs.foldr (fun b acc => b + 256 * acc) 0

/-- Slice the buffer into consecutive chunks of the given field sizes and
decode each little-endian, mirroring how `struct.unpack` walks a format. -/
def unpackFields : List Nat → List Nat → List Nat
  | [], _ => []
  | sz :: rest, bs => leDecode (bs.take sz) :: unpackFields rest (bs.drop sz)

/-- Model of `struct.unpack(format, bs)`: errors (`none`, for Python
`struct.error`) unless the buffer length equals `calcsize format`, else
returns the decoded field tuple. -/
def unpack (f : StructFormat) (bs : List Nat) : Option (List Nat) :=
  if bs.length = calcsize f then some (unpackFields (fieldSizes f) bs) else none

/-- The `Marker` class: sync-marker value, its format string, and its byte
length (`struct.calcsize(self.format)`). -/
structure Marker where
  marker : Nat
  format : StructFormat
  length : Nat
deriving DecidableEq, Repr

/-- `Marker.__init__`: stores the marker, the format, and the computed
length. -/
def Marker.init (marker : Nat) (format : StructFormat) : Marker :=
  { marker := marker, format := format, length := calcsize format }

/-- `Marker.sync`: unpack the candidate window with the marker's format and
compare the first decoded value against the stored marker; `none` models a
`struct.error` (wrong window length) escaping the method. -/
def Marker.sync (m : Marker) (bytesObject : List Nat) : Option Bool :=
  match unpack m.format bytesObject with
  | none => none
  | some results => some (decide (m.marker = results.getD 0 0))

/-- The `Packet` class: a composed `Marker`, the payload format `'<III'` and
its length, and the three decoded fields `x`, `y`, `z`. -/
structure Packet where
  marker : Marker
  format : StructFormat
  length : Nat
  x : Nat
  y : Nat
  z : Nat
deriving DecidableEq, Repr

/-- `Packet.__init__`: builds the marker, fixes the payload format to
`'<III'` (length 12), and zero-initialises `x`, `y`, `z`. -/
def Packet.init (markerVal : Nat) (markerFormat : StructFormat) : Packet :=
  { marker := Marker.init markerVal markerFormat
  , format := .fmtLtIII
  , length := calcsize .fmtLtIII
  , x := 0
  , y := 0
  , z := 0 }

/-- `Packet.deserialize`: unpack the payload window with `self.format` and
store the three decoded values into `x`, `y`, `z`; `none` models a
`struct.error` (the spec's `LayoutError`) when the window length is wrong.
The Python method mutates `self`; here the updated packet is returned. -/
def Packet.deserialize (p : Packet) (bytesObject : List Nat) : Option Packet :=
  match unpack p.format bytesObject with
  | none => none
  | some pkt => some { p with x := pkt.getD 0 0, y := pkt.getD 1 0, z := pkt.getD 2 0 }

/-- Model of `serial_port.read(n)` on a finite stream: returns the first `n`
bytes and the remainder, or `none` when fewer than `n` bytes remain (the
real call would block forever, so the run produces nothing further). -/
def readExact (stream : List Nat) (n : Nat) : Option (List Nat × List Nat) :=
  if n ≤ stream.length then some (stream.take n, stream.drop n) else none

/-- The packet object constructed by `main`: `Packet(0xdeadbeef, '<I')`. -/
def mainPacket : Packet := Packet.init 0xdeadbeef .fmtLtI

/-- The `while True` loop of `main`, run for `fuel` iterations on a finite
stream: each iteration reads `packet.marker.length` bytes, tests them with
`Marker.sync`, and on a match reads `packet.length` more bytes, deserializes
them and logs the packet.  The returned list holds the packet state at each
`packet.log()` call, in order; a blocked read or an unpack error ends the
run. -/
def runLoop : Nat → Packet → List Nat → List Packet
  | 0, _, _ => []
  | fuel + 1, packet, stream =>
    match readExact stream packet.marker.length with
    | none => []
    | some (rawBytes, rest) =>
      match packet.marker.sync rawBytes with
      | none => []
      | some true =>
        match readExact rest packet.length with
        | none => []
        | some (rawBytes2, rest2) =>
          match packet.deserialize rawBytes2 with
          | none => []
          | some packet2 => packet2 :: runLoop fuel packet2 rest2
      | some false => runLoop fuel packet rest

/-- The same loop as `runLoop`, instrumented with the byte offset (from the
start of the run) at which each SEEKING read begins; each recorded pair is
the offset of a marker-window read together with the sync outcome. -/
def seekTrace : Nat → Packet → List Nat → Nat → List (Nat × Bool)
  | 0, _, _, _ => []
  | fuel + 1, packet, stream, off =>
    match readExact stream packet.marker.length with
    | none => []
    | some (rawBytes, rest) =>
      match packet.marker.sync rawBytes with
      | none => [(off, false)]
      | some true =>
        match readExact rest packet.length with
        | none => [(off, true)]
        | some (rawBytes2, rest2) =>
          match packet.deserialize rawBytes2 with
          | none => [(off, true)]
          | some packet2 =>
            (off, true) :: seekTrace fuel packet2 rest2 (off + packet.marker.length + packet.length)
      | some false => (off, false) :: seekTrace fuel packet rest (off + packet.marker.length)

/-- Little-endian 4-byte encoding of an unsigned 32-bit value, matching the
sender's `struct.pack('<IIII', ...)` layout per field. -/
def encodeLE4 (n : Nat) : List Nat :=
  [n % 256, n / 256 % 256, n / 65536 % 256, n / 16777216 % 256]

/-- A full wire packet as the sender emits it: marker then `x`, `y`, `z`,
each 4 bytes little-endian. -/
def encodePacket (x y z : Nat) : List Nat :=
  encodeLE4 0xdeadbeef ++ encodeLE4 x ++ encodeLE4 y ++ encodeLE4 z

/-- The example input stream from the spec: marker `0xDEADBEEF` followed by
`x = 0xAA`, `y = 0xBB`, `z = 0xCC`, all little-endian. -/
def exampleInput : List Nat :=
  [0xEF, 0xBE, 0xAD, 0xDE, 0xAA, 0, 0, 0, 0xBB, 0, 0, 0, 0xCC, 0, 0, 0]

/-- The record the example stream should produce. -/
def exampleReport : Packet := { mainPacket with x := 0xAA, y := 0xBB, z := 0xCC }

/-- A payload with bit `i` of byte `j` flipped, for the no-checksum claim. -/
def flipBit (payload : List Nat) (j i : Nat) : List Nat :=
  payload.set j (Nat.xor (payload.getD j 0) (2 ^ i))

/-! ### Basic computation lemmas -/

theorem calcsize_pos (f : StructFormat) : 0 < calcsize f := by
  cases f <;> decide

theorem unpack_nil (f : StructFormat) : unpack f [] = none := by
  cases f <;> rfl

theorem Marker.sync_nil (m : Marker) : m.sync [] = none := by
  unfold Marker.sync
  rw [unpack_nil]

theorem readExact_append (l r : List Nat) (n : Nat) (h : l.length = n) :
    readExact (l ++ r) n = some (l, r) := by
  unfold readExact
  rw [if_pos (by simp [← h]), List.take_left' h, List.drop_left' h]

theorem readExact_all (l : List Nat) (n : Nat) (h : l.length = n) :
    readExact l n = some (l, []) := by
  unfold readExact
  rw [if_pos (le_of_eq h.symm), List.take_of_length_le (le_of_eq h),
    List.drop_eq_nil_of_le (le_of_eq h)]

theorem readExact_short (stream : List Nat) (n : Nat) (h : stream.length < n) :
    readExact stream n = none := by
  unfold readExact
  rw [if_neg (by omega)]

theorem unpack_fmtLtI (w : List Nat) (h : w.length = 4) :
    unpack .fmtLtI w = some [leDecode w] := by
  unfold unpack
  rw [if_pos (by simpa [calcsize, fieldSizes] using h)]
  simp [fieldSizes, unpackFields, List.take_of_length_le (by omega : w.length ≤ 4)]

theorem unpack_fmtLtIII (w : List Nat) (h : w.length = 12) :
    unpack .fmtLtIII w =
      some [leDecode (w.take 4), leDecode ((w.drop 4).take 4),
        leDecode ((w.drop 8).take 4)] := by
  unfold unpack
  rw [if_pos (by simpa [calcsize, fieldSizes] using h)]
  simp [fieldSizes, unpackFields, List.drop_drop]

theorem unpack_none_iff (f : StructFormat) (w : List Nat) :
    unpack f w = none ↔ w.length ≠ calcsize f := by
  unfold unpack
  by_cases h : w.length = calcsize f <;> simp [h]

/-! ### Lemmas about `Marker.sync` and `Packet.deserialize` -/

theorem sync_eq_of_length (m : Marker) (w : List Nat) (hf : m.format = .fmtLtI)
    (h : w.length = 4) : m.sync w = some (decide (m.marker = leDecode w)) := by
  unfold Marker.sync
  rw [hf, unpack_fmtLtI w h]
  simp

theorem deserialize_eq (p : Packet) (w : List Nat) (hf : p.format = .fmtLtIII)
    (h : w.length = 12) :
    p.deserialize w =
      some { p with
              x := leDecode (w.take 4)
              y := leDecode ((w.drop 4).take 4)
              z := leDecode ((w.drop 8).take 4) } := by
  unfold Packet.deserialize
  rw [hf, unpack_fmtLtIII w h]
  rfl

theorem deserialize_frame (p : Packet) (w : List Nat) (q : Packet)
    (h : p.deserialize w = some q) :
    q.marker = p.marker ∧ q.format = p.format ∧ q.length = p.length := by
  unfold Packet.deserialize at h
  cases hu : unpack p.format w with
  | none => rw [hu] at h; exact absurd h (by simp)
  | some pkt =>
    rw [hu] at h
    cases h
    exact ⟨rfl, rfl, rfl⟩

theorem deserialize_none_iff (p : Packet) (w : List Nat) (hf : p.format = .fmtLtIII) :
    p.deserialize w = none ↔ w.length ≠ 12 := by
  unfold Packet.deserialize
  rw [hf]
  cases hu : unpack .fmtLtIII w with
  | none =>
    have := (unpack_none_iff .fmtLtIII w).mp hu
    simpa [calcsize, fieldSizes] using this
  | some pkt =>
    have : ¬ unpack StructFormat.fmtLtIII w = none := by rw [hu]; simp
    have hlen : w.length = 12 := by
      by_contra hne
      exact this ((unpack_none_iff .fmtLtIII w).mpr (by simpa [calcsize, fieldSizes] using hne))
    simp [hlen]

/-! ### Step lemmas for the framing loop -/

theorem runLoop_succ_blocked (fuel : Nat) (p : Packet) (stream : List Nat)
    (hr : readExact stream p.marker.length = none) :
    runLoop (fuel + 1) p stream = [] := by
  simp only [runLoop]
  rw [hr]

theorem runLoop_succ_skip (fuel : Nat) (p : Packet) (stream w rest : List Nat)
    (hr : readExact stream p.marker.length = some (w, rest))
    (hs : p.marker.sync w = some false) :
    runLoop (fuel + 1) p stream = runLoop fuel p rest := by
  simp only [runLoop]
  rw [hr]
  simp only [hs]

theorem runLoop_succ_hit (fuel : Nat) (p : Packet) (stream w rest w2 rest2 : List Nat)
    (p2 : Packet)
    (hr : readExact stream p.marker.length = some (w, rest))
    (hs : p.marker.sync w = some true)
    (hr2 : readExact rest p.length = some (w2, rest2))
    (hd : p.deserialize w2 = some p2) :
    runLoop (fuel + 1) p stream = p2 :: runLoop fuel p2 rest2 := by
  simp only [runLoop]
  rw [hr]
  simp only [hs, hr2, hd]

theorem runLoop_succ_syncfail (fuel : Nat) (p : Packet) (stream w rest : List Nat)
    (hr : readExact stream p.marker.length = some (w, rest))
    (hs : p.marker.sync w = none) :
    runLoop (fuel + 1) p stream = [] := by
  simp only [runLoop]
  rw [hr]
  simp only [hs]

theorem runLoop_nil (fuel : Nat) (p : Packet) : runLoop fuel p [] = [] := by
  cases fuel with
  | zero => rfl
  | succ k =>
    by_cases h : p.marker.length = 0
    · refine runLoop_succ_syncfail k p [] [] [] ?_ (Marker.sync_nil p.marker)
      unfold readExact
      rw [h]
      rfl
    · exact runLoop_succ_blocked k p []
        (readExact_short [] p.marker.length (by simpa using Nat.pos_of_ne_zero h))

/-! ### Encoding lemmas -/

theorem encodeLE4_length (n : Nat) : (encodeLE4 n).length = 4 := rfl

theorem leDecode_encodeLE4 (n : Nat) (h : n < 2 ^ 32) : leDecode (encodeLE4 n) = n := by
  simp only [leDecode, encodeLE4, List.foldr]
  omega

theorem leDecode_marker : leDecode (encodeLE4 0xdeadbeef) = 0xdeadbeef := by decide

/-! ### Running the loop on a well-formed packet -/

theorem mainPacket_marker_length : mainPacket.marker.length = 4 := rfl

theorem mainPacket_length : mainPacket.length = 12 := rfl

theorem sync_encoded_marker : mainPacket.marker.sync (encodeLE4 0xdeadbeef) = some true := by
  decide

theorem runLoop_packet (fuel : Nat) (payload : List Nat) (h : payload.length = 12) :
    runLoop (fuel + 1) mainPacket (encodeLE4 0xdeadbeef ++ payload) =
      [{ mainPacket with
          x := leDecode (payload.take 4)
          y := leDecode ((payload.drop 4).take 4)
          z := leDecode ((payload.drop 8).take 4) }] := by
  rw [runLoop_succ_hit fuel mainPacket _ (encodeLE4 0xdeadbeef) payload payload [] _
    (readExact_append _ _ _ (encodeLE4_length 0xdeadbeef))
    sync_encoded_marker
    (readExact_all payload mainPacket.length (by rw [h, mainPacket_length]))
    (deserialize_eq mainPacket payload rfl h)]
  rw [runLoop_nil]

theorem runLoop_skip_window (fuel : Nat) (w rest : List Nat) (hw : w.length = 4)
    (hm : leDecode w ≠ 0xdeadbeef) :
    runLoop (fuel + 1) mainPacket (w ++ rest) = runLoop fuel mainPacket rest := by
  apply runLoop_succ_skip fuel mainPacket _ w rest
    (readExact_append _ _ _ (by rw [hw, mainPacket_marker_length]))
  rw [sync_eq_of_length mainPacket.marker w rfl hw]
  simp only [Option.some.injEq, decide_eq_false_iff_not]
  exact fun hEq => hm hEq.symm

theorem runLoop_skip_windows (ws : List (List Nat)) (fuel : Nat) (rest : List Nat)
    (hws : ∀ w ∈ ws, w.length = 4 ∧ leDecode w ≠ 0xdeadbeef) :
    runLoop (fuel + ws.length) mainPacket (ws.flatten ++ rest) =
      runLoop fuel mainPacket rest := by
  induction ws generalizing fuel with
  | nil => simp
  | cons w ws ih =>
    have hw := hws w (by simp)
    have step : runLoop (fuel + ws.length + 1) mainPacket (w ++ (ws.flatten ++ rest)) =
        runLoop (fuel + ws.length) mainPacket (ws.flatten ++ rest) :=
      runLoop_skip_window _ _ _ hw.1 hw.2
    have harr : List.length (w :: ws) = ws.length + 1 := rfl
    rw [harr, show fuel + (ws.length + 1) = fuel + ws.length + 1 from rfl]
    rw [show (w :: ws).flatten ++ rest = w ++ (ws.flatten ++ rest) by simp]
    rw [step]
    exact ih fuel (fun v hv => hws v (by simp [hv]))

/-- Every packet state reported by the loop keeps the immutable configuration
fields (`marker`, `format`, `length`) of the packet the loop started with. -/
theorem runLoop_config_invariant (fuel : Nat) (p : Packet) (stream : List Nat)
    (q : Packet) (hq : q ∈ runLoop fuel p stream) :
    q.marker = p.marker ∧ q.format = p.format ∧ q.length = p.length := by
  induction fuel generalizing p stream with
  | zero => simp [runLoop] at hq
  | succ fuel ih =>
    simp only [runLoop] at hq
    cases hr : readExact stream p.marker.length with
    | none => rw [hr] at hq; simp at hq
    | some pair =>
      obtain ⟨w, rest⟩ := pair
      rw [hr] at hq
      simp only [] at hq
      cases hs : p.marker.sync w with
      | none => rw [hs] at hq; simp at hq
      | some b =>
        rw [hs] at hq
        cases b with
        | false =>
          simp only at hq
          exact ih p rest hq
        | true =>
          simp only at hq
          cases hr2 : readExact rest p.length with
          | none => rw [hr2] at hq; simp at hq
          | some pair2 =>
            obtain ⟨w2, rest2⟩ := pair2
            rw [hr2] at hq
            simp only [] at hq
            cases hd : p.deserialize w2 with
            | none => rw [hd] at hq; simp at hq
            | some p2 =>
              rw [hd] at hq
              simp only [List.mem_cons] at hq
              have hframe := deserialize_frame p w2 p2 hd
              cases hq with
              | inl hq => rw [hq]; exact hframe
              | inr hq =>
                have := ih p2 rest2 hq
                exact ⟨this.1.trans hframe.1, this.2.1.trans hframe.2.1,
                  this.2.2.trans hframe.2.2⟩

/-- Alignment invariant of the SEEKING reads: starting from a 4-divisible
offset, every marker-window read the loop ever performs begins at an offset
divisible by 4, because a rejected window advances by 4 bytes and an accepted
packet advances by 4 + 12 bytes. -/
theorem seekTrace_offsets (fuel : Nat) (p : Packet) (stream : List Nat) (off : Nat)
    (hm : p.marker.length = 4) (hl : p.length = 12) (hoff : off % 4 = 0)
    (o : Nat) (b : Bool) (hmem : (o, b) ∈ seekTrace fuel p stream off) :
    o % 4 = 0 := by
  induction fuel generalizing p stream off with
  | zero => simp [seekTrace] at hmem
  | succ fuel ih =>
    simp only [seekTrace] at hmem
    cases hr : readExact stream p.marker.length with
    | none => rw [hr] at hmem; simp at hmem
    | some pair =>
      obtain ⟨w, rest⟩ := pair
      rw [hr] at hmem
      simp only [] at hmem
      cases hs : p.marker.sync w with
      | none =>
        rw [hs] at hmem
        simp only [List.mem_singleton, Prod.mk.injEq] at hmem
        rw [hmem.1]
        exact hoff
      | some b2 =>
        rw [hs] at hmem
        cases b2 with
        | false =>
          simp only [List.mem_cons, Prod.mk.injEq] at hmem
          rcases hmem with ⟨ho, _⟩ | hmem
          · rw [ho]; exact hoff
          · exact ih p rest (off + p.marker.length) hm hl (by omega) hmem
        | true =>
          simp only at hmem
          cases hr2 : readExact rest p.length with
          | none =>
            rw [hr2] at hmem
            simp only [List.mem_singleton, Prod.mk.injEq] at hmem
            rw [hmem.1]
            exact hoff
          | some pair2 =>
            obtain ⟨w2, rest2⟩ := pair2
            rw [hr2] at hmem
            simp only [] at hmem
            cases hd : p.deserialize w2 with
            | none =>
              rw [hd] at hmem
              simp only [List.mem_singleton, Prod.mk.injEq] at hmem
              rw [hmem.1]
              exact hoff
            | some p2 =>
              rw [hd] at hmem
              simp only [List.mem_cons, Prod.mk.injEq] at hmem
              rcases hmem with ⟨ho, _⟩ | hmem
              · rw [ho]; exact hoff
              · have hframe := deserialize_frame p w2 p2 hd
                exact ih p2 rest2 (off + p.marker.length + p.length)
                  (by rw [hframe.1, hm]) (by rw [hframe.2.2, hl]) (by omega) hmem

/-- Splitting a concatenation of three 4-byte chunks back into its chunks. -/
theorem chunks3 (a b c : List Nat) (ha : a.length = 4) (hb : b.length = 4)
    (hc : c.length = 4) :
    (a ++ b ++ c).take 4 = a ∧ ((a ++ b ++ c).drop 4).take 4 = b ∧
      ((a ++ b ++ c).drop 8).take 4 = c := by
  rw [List.append_assoc]
  refine ⟨List.take_left' ha, ?_, ?_⟩
  · rw [List.drop_left' ha, List.take_left' hb]
  · rw [show (8 : Nat) = 4 + 4 from rfl, ← List.drop_drop, List.drop_left' ha,
      List.drop_left' hb, List.take_of_length_le (le_of_eq hc)]

/-- Running the loop on one well-formed encoded packet decodes the three
fields back. -/
theorem runLoop_encodePacket (x y z fuel : Nat) (hx : x < 2 ^ 32) (hy : y < 2 ^ 32)
    (hz : z < 2 ^ 32) (hfuel : 1 ≤ fuel) :
    runLoop fuel mainPacket (encodePacket x y z) =
      [{ mainPacket with x := x, y := y, z := z }] := by
  obtain ⟨k, rfl⟩ : ∃ k, fuel = k + 1 := ⟨fuel - 1, by omega⟩
  have hpay : (encodeLE4 x ++ encodeLE4 y ++ encodeLE4 z).length = 12 := by
    simp [encodeLE4_length]
  have hs := runLoop_packet k (encodeLE4 x ++ encodeLE4 y ++ encodeLE4 z) hpay
  rw [show encodePacket x y z =
    encodeLE4 0xdeadbeef ++ (encodeLE4 x ++ encodeLE4 y ++ encodeLE4 z) by
      simp [encodePacket]]
  rw [hs]
  obtain ⟨h1, h2, h3⟩ := chunks3 (encodeLE4 x) (encodeLE4 y) (encodeLE4 z)
    (encodeLE4_length x) (encodeLE4_length y) (encodeLE4_length z)
  rw [h1, h2, h3, leDecode_encodeLE4 x hx, leDecode_encodeLE4 y hy,
    leDecode_encodeLE4 z hz]

/-! ### Claim theorems -/

/-- C1: for every x, y, z below 2^32, feeding the 16-byte stream
marker || x || y || z (each 4 bytes little-endian) through the framing loop
yields exactly one decoded record with fields x, y, z; in particular the
spec's example bytes EF BE AD DE AA 00 00 00 BB 00 00 00 CC 00 00 00 yield
exactly the one record with x = 0xAA, y = 0xBB, z = 0xCC. -/
theorem C1_roundtrip :
    (∀ x y z fuel : Nat, x < 2 ^ 32 → y < 2 ^ 32 → z < 2 ^ 32 → 1 ≤ fuel →
      runLoop fuel mainPacket (encodePacket x y z) =
        [{ mainPacket with x := x, y := y, z := z }]) ∧
    runLoop 1 mainPacket exampleInput = [exampleReport] := by
  refine ⟨?_, by decide⟩
  intro x y z fuel hx hy hz hfuel
  exact runLoop_encodePacket x y z fuel hx hy hz hfuel

theorem C1_roundtrip_witness :
    runLoop 1 mainPacket (encodePacket 3 5 7) =
      [{ mainPacket with x := 3, y := 5, z := 7 }] :=
  C1_roundtrip.1 3 5 7 1 (by decide) (by decide) (by decide) (by decide)

/-- C2: for every 4-byte window, `Marker.sync` of the configured marker
returns true exactly when the little-endian decode of the window equals
0xDEADBEEF, and returns false on every other 4-byte window, including the
all-zero and all-ones windows. -/
theorem C2_marker_selectivity :
    (∀ w : List Nat, w.length = 4 →
      (mainPacket.marker.sync w = some true ↔ leDecode w = 0xdeadbeef) ∧
      (leDecode w ≠ 0xdeadbeef → mainPacket.marker.sync w = some false)) ∧
    mainPacket.marker.sync (List.replicate 4 0) = some false ∧
    mainPacket.marker.sync (List.replicate 4 0xff) = some false := by
  refine ⟨?_, by decide, by decide⟩
  intro w hw
  rw [sync_eq_of_length mainPacket.marker w rfl hw]
  rw [show mainPacket.marker.marker = 0xdeadbeef from rfl]
  constructor
  · simp [eq_comm]
  · intro hne
    simp [Ne.symm hne]

theorem C2_marker_selectivity_witness :
    (mainPacket.marker.sync [1, 2, 3, 4] = some true ↔
      leDecode [1, 2, 3, 4] = 0xdeadbeef) ∧
    (leDecode [1, 2, 3, 4] ≠ 0xdeadbeef →
      mainPacket.marker.sync [1, 2, 3, 4] = some false) :=
  C2_marker_selectivity.1 [1, 2, 3, 4] (by decide)

/-- C3: every SEEKING window the loop ever reads begins at a byte offset
divisible by 4, so a marker occurrence starting at any offset that is not a
multiple of 4 is never read as a window and hence never matched; in
particular a stream with the marker at offset 1 produces no report. -/
theorem C3_window_alignment :
    (∀ (fuel : Nat) (stream : List Nat) (o : Nat) (b : Bool), o % 4 ≠ 0 →
      (o, b) ∉ seekTrace fuel mainPacket stream 0) ∧
    runLoop 5 mainPacket
      (0 :: encodeLE4 0xdeadbeef ++ [1, 2, 3, 4, 5, 6, 7, 8, 9, 10, 11, 12]) = [] := by
  refine ⟨?_, by decide⟩
  intro fuel stream o b ho hmem
  exact ho (seekTrace_offsets fuel mainPacket stream 0 mainPacket_marker_length
    mainPacket_length rfl o b hmem)

theorem C3_window_alignment_witness :
    (1, true) ∉ seekTrace 5 mainPacket
      (0 :: encodeLE4 0xdeadbeef ++ [1, 2, 3, 4, 5, 6, 7, 8, 9, 10, 11, 12]) 0 :=
  C3_window_alignment.1 5
    (0 :: encodeLE4 0xdeadbeef ++ [1, 2, 3, 4, 5, 6, 7, 8, 9, 10, 11, 12]) 1 true
    (by decide)

/-- C4: a stream of N non-matching 4-byte windows followed by one valid
16-byte packet produces exactly one report, and the reported values are
exactly the decoded fields of the final packet, independent of the discarded
windows. -/
theorem C4_resync_discards (ws : List (List Nat)) (x y z fuel : Nat)
    (hws : ∀ w ∈ ws, w.length = 4 ∧ leDecode w ≠ 0xdeadbeef)
    (hx : x < 2 ^ 32) (hy : y < 2 ^ 32) (hz : z < 2 ^ 32)
    (hfuel : ws.length + 1 ≤ fuel) :
    runLoop fuel mainPacket (ws.flatten ++ encodePacket x y z) =
      [{ mainPacket with x := x, y := y, z := z }] := by
  obtain ⟨k, rfl⟩ : ∃ k, fuel = (k + 1) + ws.length :=
    ⟨fuel - 1 - ws.length, by omega⟩
  rw [runLoop_skip_windows ws (k + 1) _ hws]
  exact runLoop_encodePacket x y z (k + 1) hx hy hz (by omega)

theorem C4_resync_discards_witness :
    runLoop 3 mainPacket
      (([[9, 9, 9, 9], [0, 0, 0, 0]] : List (List Nat)).flatten ++
        encodePacket 3 5 7) = [{ mainPacket with x := 3, y := 5, z := 7 }] :=
  C4_resync_discards [[9, 9, 9, 9], [0, 0, 0, 0]] 3 5 7 3 (by decide)
    (by decide) (by decide) (by decide) (by decide)

/-- C5: on any 12-byte window, `Packet.deserialize` splits the window into
three consecutive 4-byte chunks and assigns the little-endian decode of
bytes 0-3 to x, bytes 4-7 to y, and bytes 8-11 to z. -/
theorem C5_field_assignment (p : Packet) (w : List Nat)
    (hf : p.format = StructFormat.fmtLtIII) (h : w.length = 12) :
    p.deserialize w =
      some { p with
              x := leDecode (w.take 4)
              y := leDecode ((w.drop 4).take 4)
              z := leDecode ((w.drop 8).take 4) } :=
  deserialize_eq p w hf h

theorem C5_field_assignment_witness :
    mainPacket.deserialize [1, 0, 0, 0, 2, 0, 0, 0, 3, 0, 0, 0] =
      some { mainPacket with
              x := leDecode ([1, 0, 0, 0, 2, 0, 0, 0, 3, 0, 0, 0].take 4)
              y := leDecode (([1, 0, 0, 0, 2, 0, 0, 0, 3, 0, 0, 0].drop 4).take 4)
              z := leDecode (([1, 0, 0, 0, 2, 0, 0, 0, 3, 0, 0, 0].drop 8).take 4) } :=
  C5_field_assignment mainPacket [1, 0, 0, 0, 2, 0, 0, 0, 3, 0, 0, 0] rfl (by decide)

/-- C6 counterexample: `Packet.deserialize` does change pre-existing state:
called on a packet whose fields are 1, 2, 3 with an all-zero window, it
returns the packet with those fields overwritten — the result differs from
the input packet, so the operation is not free of effects on prior state. -/
theorem C6_counterexample :
    Packet.deserialize { mainPacket with x := 1, y := 2, z := 3 }
        (List.replicate 12 0) = some mainPacket ∧
      mainPacket ≠ { mainPacket with x := 1, y := 2, z := 3 } := by
  exact ⟨by decide, by decide⟩

/-- C6 (amended): the only state `Packet.deserialize` changes is the decoded
record itself (the fields x, y, z); the marker, the format and the length of
the packet are left unchanged by every successful call. -/
theorem C6_effect_frame (p : Packet) (w : List Nat) (q : Packet)
    (h : p.deserialize w = some q) :
    q.marker = p.marker ∧ q.format = p.format ∧ q.length = p.length :=
  deserialize_frame p w q h

theorem C6_effect_frame_witness :
    exampleReport.marker = mainPacket.marker ∧
      exampleReport.format = mainPacket.format ∧
      exampleReport.length = mainPacket.length :=
  C6_effect_frame mainPacket [0xAA, 0, 0, 0, 0xBB, 0, 0, 0, 0xCC, 0, 0, 0]
    exampleReport (by decide)

/-- C7 counterexample: the record each loop iteration reports is the `Packet`
object itself, and it does retain the marker: on the spec's example stream
the single reported record still carries the sync marker 0xDEADBEEF (and the
layout configuration), so it does not hold only x, y, z. -/
theorem C7_counterexample :
    runLoop 1 mainPacket exampleInput = [exampleReport] ∧
      exampleReport.marker.marker = 0xdeadbeef := by
  exact ⟨by decide, by decide⟩

/-- C7 (amended): every record the loop reports carries, besides the decoded
x, y, z, the immutable configuration of the single packet object `main`
constructs: its marker is the configured sync marker 0xDEADBEEF, its format
is `'<III'` and its payload length is 12, all identical to the initial
packet's. -/
theorem C7_reported_config (fuel : Nat) (stream : List Nat) (q : Packet)
    (hq : q ∈ runLoop fuel mainPacket stream) :
    q.marker = mainPacket.marker ∧ q.marker.marker = 0xdeadbeef ∧
      q.format = StructFormat.fmtLtIII ∧ q.length = 12 := by
  obtain ⟨h1, h2, h3⟩ := runLoop_config_invariant fuel mainPacket stream q hq
  exact ⟨h1, by rw [h1]; rfl, by rw [h2]; rfl, by rw [h3]; rfl⟩

theorem C7_reported_config_witness :
    exampleReport.marker = mainPacket.marker ∧
      exampleReport.marker.marker = 0xdeadbeef ∧
      exampleReport.format = StructFormat.fmtLtIII ∧ exampleReport.length = 12 :=
  C7_reported_config 1 exampleInput exampleReport (by decide)

/-- C8: `Packet.deserialize` fails (the spec's `LayoutError`, Python's
`struct.error`) exactly when the window's length differs from the payload
width 12, and succeeds on every window of exactly 12 bytes. -/
theorem C8_layout_error (p : Packet) (w : List Nat)
    (hf : p.format = StructFormat.fmtLtIII) :
    (p.deserialize w = none ↔ w.length ≠ 12) ∧
      ((p.deserialize w).isSome = true ↔ w.length = 12) := by
  have h1 := deserialize_none_iff p w hf
  refine ⟨h1, ?_⟩
  rw [Option.isSome_iff_ne_none, Ne, h1, not_not]

theorem C8_layout_error_witness :
    (mainPacket.deserialize [1, 2, 3] = none ↔ ([1, 2, 3] : List Nat).length ≠ 12) ∧
      ((mainPacket.deserialize [1, 2, 3]).isSome = true ↔
        ([1, 2, 3] : List Nat).length = 12) :=
  C8_layout_error mainPacket [1, 2, 3] rfl

/-- C9: flipping any single bit of any of the 12 payload bytes of a valid
packet still yields exactly one successful decode, and the reported record
holds the values decoded from the corrupted payload — no payload window is
rejected. -/
theorem C9_no_checksum (payload : List Nat) (j i fuel : Nat)
    (hlen : payload.length = 12) (hj : j < 12) (hi : i < 8) (hfuel : 1 ≤ fuel) :
    runLoop fuel mainPacket (encodeLE4 0xdeadbeef ++ flipBit payload j i) =
      [{ mainPacket with
          x := leDecode ((flipBit payload j i).take 4)
          y := leDecode (((flipBit payload j i).drop 4).take 4)
          z := leDecode (((flipBit payload j i).drop 8).take 4) }] := by
  obtain ⟨k, rfl⟩ : ∃ k, fuel = k + 1 := ⟨fuel - 1, by omega⟩
  exact runLoop_packet k _ (by rw [flipBit, List.length_set, hlen])

theorem C9_no_checksum_witness :
    runLoop 1 mainPacket
      (encodeLE4 0xdeadbeef ++ flipBit [0xAA, 0, 0, 0, 0xBB, 0, 0, 0, 0xCC, 0, 0, 0] 0 1) =
      [{ mainPacket with
          x := leDecode ((flipBit [0xAA, 0, 0, 0, 0xBB, 0, 0, 0, 0xCC, 0, 0, 0] 0 1).take 4)
          y := leDecode (((flipBit [0xAA, 0, 0, 0, 0xBB, 0, 0, 0, 0xCC, 0, 0, 0] 0 1).drop 4).take 4)
          z := leDecode (((flipBit [0xAA, 0, 0, 0, 0xBB, 0, 0, 0, 0xCC, 0, 0, 0] 0 1).drop 8).take 4) }] :=
  C9_no_checksum [0xAA, 0, 0, 0, 0xBB, 0, 0, 0, 0xCC, 0, 0, 0] 0 1 1 (by decide)
    (by decide) (by decide) (by decide)

/-- C10: the values stored by `Packet.deserialize` depend only on the window:
two successful runs on the same window from any two prior packet states,
including the zero-initialised one, store identical x, y, z. -/
theorem C10_window_determinism (p1 p2 : Packet) (w : List Nat) (q1 q2 : Packet)
    (hf1 : p1.format = StructFormat.fmtLtIII) (hf2 : p2.format = StructFormat.fmtLtIII)
    (h1 : p1.deserialize w = some q1) (h2 : p2.deserialize w = some q2) :
    q1.x = q2.x ∧ q1.y = q2.y ∧ q1.z = q2.z := by
  have hlen : w.length = 12 := by
    by_contra hne
    rw [(deserialize_none_iff p1 w hf1).mpr hne] at h1
    exact absurd h1 (by simp)
  rw [deserialize_eq p1 w hf1 hlen] at h1
  rw [deserialize_eq p2 w hf2 hlen] at h2
  cases h1
  cases h2
  exact ⟨rfl, rfl, rfl⟩

theorem C10_window_determinism_witness :
    exampleReport.x = exampleReport.x ∧ exampleReport.y = exampleReport.y ∧
      exampleReport.z = exampleReport.z :=
  C10_window_determinism mainPacket { mainPacket with x := 9, y := 8, z := 7 }
    [0xAA, 0, 0, 0, 0xBB, 0, 0, 0, 0xCC, 0, 0, 0] exampleReport exampleReport
    rfl rfl (by decide) (by decide)

end DeserializerKiss
